import Mathlib

/-!
Shallow embedding of the VEX-Perception data-preparation pipeline
(src/pretrain-image-model.ipynb): frame sampling (load_video_frames),
frame embedding (get_frame_embeddings), window building (prepare_data),
corpus aggregation (VideoFrameDataset) and directory enumeration
(load_video_paths).

Modelling conventions:
- An embedding (a 1-D torch tensor) is a list of rationals; a stacked 2-D
  tensor is a list of embeddings, a stacked 3-D tensor a list of those.
- Machine floats carry no claim-relevant semantics here; exact rationals
  stand in for them.
- Fallible Python code (exceptions raised by indexing, torch.stack,
  os.listdir, zero division) is embedded in the Except monad with an
  explicit error type.
- A video file on disk is modelled by the data the decoder extracts from
  it: its reported native frame rate (cv2 reports 0.0 when the rate is
  unavailable) and its finite list of decodable frames in order.
- The per-frame colour conversion cv2.cvtColor(..., COLOR_BGR2RGB)
  followed by Image.fromarray is an opaque per-frame transformation,
  passed in as a function cvt.
- The Img2Vec handle is an opaque function from (converted) frames to
  embeddings, passed in as a function img2vec.
-/

/-- Kinds of Python exceptions the embedded code can raise. -/
inductive Err where
  | indexError
  | shapeMismatchError
  | sourceReadError
  | zeroDivisionError
  | emptyStackError
  deriving DecidableEq, Repr

/-- An embedding vector (a 1-D tensor): a fixed-length list of numbers. -/
abbrev Emb := List ℚ

/-- A video as seen through cv2.VideoCapture: the reported native frame
rate (CAP_PROP_FPS, which is 0 when unavailable) and the decodable frames
in presentation order. -/
structure Video (α : Type) where
  frame_rate : ℚ
  frames : List α
  deriving Repr

/-- Python's built-in round on an exact value: round half to even. -/
def pyRound (q : ℚ) : ℤ :=
  let f := ⌊q⌋
  let r := q - (f : ℚ)
  if r < 1/2 then f
  else if 1/2 < r then f + 1
  else if f % 2 = 0 then f else f + 1

/-- The frame_skip computation of load_video_frames:
frame_skip = max(1, round(frame_rate / fps)). -/
def strideOf (frame_rate fps : ℚ) : ℕ :=
  (max 1 (pyRound (frame_rate / fps))).toNat

/-- The while loop of load_video_frames: reads frames in order, keeping a
frame exactly when count % frame_skip == 0, applying the colour
conversion to each kept frame. -/
def sampleLoop {α β : Type} (cvt : α → β) (frame_skip : ℕ) : ℕ → List α → List β
  | _, [] => []
  | count, frame :: rest =>
    if count % frame_skip = 0 then
      cvt frame :: sampleLoop cvt frame_skip (count + 1) rest
    else
      sampleLoop cvt frame_skip (count + 1) rest

/-- load_video_frames(video_path, fps=8): computes
frame_skip = max(1, round(frame_rate / fps)) and keeps every frame whose
zero-based decode index is divisible by frame_skip, converted to RGB.
Python raises ZeroDivisionError on frame_rate / 0. -/
def load_video_frames {α β : Type} (cvt : α → β) (video : Video α) (fps : ℚ) :
    Except Err (List β) :=
  if fps = 0 then Except.error Err.zeroDivisionError
  else Except.ok (sampleLoop cvt (strideOf video.frame_rate fps) 0 video.frames)

/-- get_frame_embeddings(frames, img2vec): one embedding per frame. -/
def get_frame_embeddings {β : Type} (frames : List β) (img2vec : β → Emb) : List Emb :=
  frames.map img2vec

/-- torch.zeros(shape) for a 1-D shape: the all-zero vector. -/
def torchZeros (n : ℕ) : Emb := List.replicate n 0

/-- torch.stack on a list of 1-D tensors: requires a non-empty list of
equal-length vectors, and is then the identity on the list. -/
def torchStack1 (xs : List Emb) : Except Err (List Emb) :=
  match xs with
  | [] => Except.error Err.emptyStackError
  | e :: rest =>
    if rest.all (fun f => f.length = e.length) then Except.ok (e :: rest)
    else Except.error Err.shapeMismatchError

/-- Shape of a (successfully stacked, hence rectangular) 2-D tensor. -/
def shape2 (t : List Emb) : ℕ × ℕ := (t.length, (t.headD []).length)

/-- torch.stack on a list of 2-D tensors: requires a non-empty list of
equal-shape matrices, and is then the identity on the list. -/
def torchStack2 (ts : List (List Emb)) : Except Err (List (List Emb)) :=
  match ts with
  | [] => Except.error Err.emptyStackError
  | t :: rest =>
    if rest.all (fun u => shape2 u = shape2 t) then Except.ok (t :: rest)
    else Except.error Err.shapeMismatchError

/-- The list comprehension [torch.stack(x) for x in X]: stacks each
context left to right, propagating the first failure. -/
def stackEach : List (List Emb) → Except Err (List (List Emb))
  | [] => Except.ok []
  | x :: rest => do
    let t ← torchStack1 x
    let ts ← stackEach rest
    pure (t :: ts)

/-- The three context slots appended for index i in prepare_data:
[ null if i-3 < 0 else e[i-3], null if i-2 < 0 else e[i-2],
  null if i-1 < 0 else e[i-1] ]. -/
def contextAt (null_frame : Emb) (embedded_frames : List Emb) (i : ℕ) : List Emb :=
  [ if (i : ℤ) - 3 < 0 then null_frame else embedded_frames.getD (i - 3) [],
    if (i : ℤ) - 2 < 0 then null_frame else embedded_frames.getD (i - 2) [],
    if (i : ℤ) - 1 < 0 then null_frame else embedded_frames.getD (i - 1) [] ]

/-- prepare_data(embedded_frames): builds null_frame from
embedded_frames[0].shape (raising IndexError on an empty input), appends
one (3-slot context, target) pair per index, and returns
(torch.stack([torch.stack(x) for x in X]), torch.stack(y)). -/
def prepare_data (embedded_frames : List Emb) :
    Except Err (List (List Emb) × List Emb) :=
  match embedded_frames with
  | [] => Except.error Err.indexError
  | e0 :: rest =>
    let null_frame : Emb := torchZeros e0.length
    let X : List (List Emb) :=
      (List.range (e0 :: rest).length).map (contextAt null_frame (e0 :: rest))
    let y : List Emb := e0 :: rest
    match stackEach X with
    | Except.error e => Except.error e
    | Except.ok Xs =>
      match torchStack2 Xs with
      | Except.error e => Except.error e
      | Except.ok Xss =>
        match torchStack1 y with
        | Except.error e => Except.error e
        | Except.ok ys => Except.ok (Xss, ys)

/-- An element of the VideoFrameDataset's internal python list: since
dataset.extend(prepare_data(...)) iterates the returned pair, each entry
is either a stacked 3-D context tensor or a stacked 2-D target tensor. -/
abbrev Item := (List (List Emb)) ⊕ (List Emb)

/-- VideoFrameDataset.load_and_process_videos: for each video in order,
sample frames, embed them, and extend the accumulator with the pair
returned by prepare_data (extend iterates the pair, appending the stacked
X tensor then the stacked y tensor). -/
def VideoFrameDataset.load_and_process_videos {α β : Type} (cvt : α → β)
    (img2vec : β → Emb) (fps : ℚ) : List (Video α) → Except Err (List Item)
  | [] => Except.ok []
  | v :: vs => do
    let frames ← load_video_frames cvt v fps
    let embedded_frames := get_frame_embeddings frames img2vec
    let xy ← prepare_data embedded_frames
    let tail ← VideoFrameDataset.load_and_process_videos cvt img2vec fps vs
    pure (Sum.inl xy.1 :: Sum.inr xy.2 :: tail)

/-- VideoFrameDataset.__len__: len(self.dataset). -/
def VideoFrameDataset.len (dataset : List Item) : ℕ := dataset.length

/-- VideoFrameDataset.__getitem__: self.dataset[idx] with Python list
semantics — a negative index counts from the end, and an index out of
range on both sides raises IndexError. -/
def VideoFrameDataset.getitem (dataset : List Item) (idx : ℤ) : Except Err Item :=
  let n : ℤ := (dataset.length : ℤ)
  let j : ℤ := if idx < 0 then idx + n else idx
  if 0 ≤ j ∧ j < n then Except.ok (dataset.getD j.toNat (Sum.inr []))
  else Except.error Err.indexError

/-- load_video_paths(training_path): joins training_path with every entry
of os.listdir(training_path) that ends in ".mp4". The directory listing
is modelled as Option (List String): none when the directory does not
exist (os.listdir raises FileNotFoundError), some entries otherwise; the
listing contains the directory's own entries only (non-recursive).
os.path.join of a directory and a listed basename is path ++ "/" ++ name. -/
def load_video_paths (training_path : String) (listing : Option (List String)) :
    Except Err (List String) :=
  match listing with
  | none => Except.error Err.sourceReadError
  | some entries =>
    Except.ok ((entries.filter (fun f => f.endsWith ".mp4")).map
      (fun f => training_path ++ "/" ++ f))

/-- Rounding a value whose fractional part is below one half gives its floor. -/
lemma pyRound_eq_floor {q : ℚ} {n : ℤ} (hf : ⌊q⌋ = n) (h : q - n < 1/2) :
    pyRound q = n := by
  unfold pyRound
  rw [hf, if_pos h]

/-- Rounding a value whose fractional part exceeds one half gives its floor
plus one. -/
lemma pyRound_eq_floor_add_one {q : ℚ} {n : ℤ} (hf : ⌊q⌋ = n) (h : 1/2 < q - n) :
    pyRound q = n + 1 := by
  unfold pyRound
  rw [hf, if_neg (by linarith), if_pos h]

/-- The stride for native rate 30 and target rate 8 is 4. -/
lemma strideOf_30_8 : strideOf 30 8 = 4 := by
  unfold strideOf
  rw [pyRound_eq_floor_add_one (n := 3) (by norm_num) (by norm_num)]
  rfl

/-- The stride for native rate 8 and target rate 8 is 1. -/
lemma strideOf_8_8 : strideOf 8 8 = 1 := by
  unfold strideOf
  rw [pyRound_eq_floor (n := 1) (by norm_num) (by norm_num)]
  rfl

/-- When the reported native rate is 0, the stride is 1. -/
lemma strideOf_zero (fps : ℚ) : strideOf 0 fps = 1 := by
  unfold strideOf
  rw [zero_div, pyRound_eq_floor (n := 0) (by norm_num) (by norm_num)]
  rfl

/-- The stride is always at least 1. -/
lemma strideOf_pos (R fps : ℚ) : 0 < strideOf R fps := by
  unfold strideOf
  have h : (1 : ℤ) ≤ max 1 (pyRound (R / fps)) := le_max_left _ _
  omega

/-- A run of counts that are all non-multiples of the stride keeps nothing:
the loop just drops those frames. -/
lemma sampleLoop_skip {α β : Type} (cvt : α → β) (s : ℕ) (k : ℕ) :
    ∀ (c : ℕ) (l : List α), (∀ t, t < k → (c + t) % s ≠ 0) →
      sampleLoop cvt s c l = sampleLoop cvt s (c + k) (l.drop k) := by
  induction k with
  | zero => intro c l _; simp
  | succ k ih =>
    intro c l h
    cases l with
    | nil => simp [sampleLoop]
    | cons a rest =>
      have h0 : c % s ≠ 0 := by simpa using h 0 (Nat.succ_pos k)
      rw [show sampleLoop cvt s c (a :: rest) = sampleLoop cvt s (c + 1) rest from by
        simp [sampleLoop, h0]]
      rw [ih (c + 1) rest (fun t ht => by
        have he : c + 1 + t = c + (t + 1) := by omega
        rw [he]
        exact h (t + 1) (by omega))]
      have hc : c + 1 + k = c + (k + 1) := by omega
      rw [hc, List.drop_succ_cons]

/-- Positional characterisation of the sampling loop started at a count
divisible by the stride: the j-th kept frame is the frame at source index
j * stride. -/
lemma sampleLoop_get? {α β : Type} (cvt : α → β) (s : ℕ) (hs : 0 < s) :
    ∀ (n : ℕ) (l : List α), l.length ≤ n → ∀ (c j : ℕ), c % s = 0 →
      (sampleLoop cvt s c l).get? j = (l.get? (j * s)).map cvt := by
  intro n
  induction n with
  | zero =>
    intro l hl c j _
    have hnil : l = [] := List.eq_nil_of_length_eq_zero (Nat.le_zero.mp hl)
    subst hnil
    simp [sampleLoop]
  | succ n ih =>
    intro l hl c j hc
    cases l with
    | nil => simp [sampleLoop]
    | cons a rest =>
      have hstep : sampleLoop cvt s c (a :: rest)
          = cvt a :: sampleLoop cvt s (c + s) (rest.drop (s - 1)) := by
        rw [show sampleLoop cvt s c (a :: rest)
            = cvt a :: sampleLoop cvt s (c + 1) rest from by simp [sampleLoop, hc]]
        rw [sampleLoop_skip cvt s (s - 1) (c + 1) rest (fun t ht => by
          obtain ⟨m, hm⟩ := Nat.dvd_of_mod_eq_zero hc
          have key : (c + 1 + t) % s = 1 + t := by
            rw [hm]
            have he : s * m + 1 + t = s * m + (1 + t) := by omega
            rw [he, Nat.mul_add_mod]
            exact Nat.mod_eq_of_lt (by omega)
          rw [key]
          omega)]
        have hc1 : c + 1 + (s - 1) = c + s := by omega
        rw [hc1]
      rw [hstep]
      cases j with
      | zero => simp
      | succ j =>
        rw [List.get?_cons_succ]
        have hlen : (rest.drop (s - 1)).length ≤ n := by
          have : rest.length ≤ n := by simpa using Nat.le_of_succ_le_succ hl
          calc (rest.drop (s - 1)).length ≤ rest.length := by
                simp [List.length_drop]
            _ ≤ n := this
        rw [ih (rest.drop (s - 1)) hlen (c + s) j
          (by rw [Nat.add_mod_right]; exact hc)]
        rw [List.get?_drop]
        have harith : (j + 1) * s = (s - 1 + j * s) + 1 := by
          rw [Nat.succ_mul]
          omega
        rw [harith, List.get?_cons_succ]

/-- When the guard on fps passes, the sampler returns the loop's output. -/
lemma load_video_frames_ok {α β : Type} (cvt : α → β) (v : Video α) (fps : ℚ)
    (h : fps ≠ 0) :
    load_video_frames cvt v fps
      = Except.ok (sampleLoop cvt (strideOf v.frame_rate fps) 0 v.frames) := by
  simp [load_video_frames, h]

/-- With stride 1 the loop keeps every frame. -/
lemma sampleLoop_one {α β : Type} (cvt : α → β) :
    ∀ (c : ℕ) (l : List α), sampleLoop cvt 1 c l = l.map cvt := by
  intro c l
  induction l generalizing c with
  | nil => simp [sampleLoop]
  | cons a rest ih => simp [sampleLoop, Nat.mod_one, ih]
/-- C5: load_video_frames computes stride = max(1, round(R / fps)) and
retains exactly the frames whose zero-based decode index is a multiple of
the stride (the j-th retained frame is the decoded frame at index
j * stride); for R = 30 and fps = 8 the stride is 4, so the retained
indices are 0, 4, 8, 12, .... -/
theorem load_video_frames_stride_correct {α β : Type} (cvt : α → β)
    (v : Video α) (fps : ℚ) (h : fps ≠ 0) :
    (∃ out, load_video_frames cvt v fps = Except.ok out ∧
      ∀ j : ℕ, out.get? j = (v.frames.get? (j * strideOf v.frame_rate fps)).map cvt) ∧
    strideOf 30 8 = 4 := by
  refine ⟨⟨sampleLoop cvt (strideOf v.frame_rate fps) 0 v.frames,
    load_video_frames_ok cvt v fps h, fun j => ?_⟩, strideOf_30_8⟩
  exact sampleLoop_get? cvt (strideOf v.frame_rate fps)
    (strideOf_pos v.frame_rate fps) v.frames.length v.frames le_rfl 0 j
    (Nat.zero_mod _)

/-- Witness for C5: a 13-frame video of native rate 30 sampled at fps 8
keeps exactly the frames at indices 0, 4, 8, 12. -/
theorem load_video_frames_stride_correct_witness :
    ((∃ out, load_video_frames (fun n : ℕ => n) ⟨30, List.range 13⟩ 8 = Except.ok out ∧
      ∀ j : ℕ, out.get? j = ((List.range 13).get? (j * strideOf 30 8)).map (fun n : ℕ => n)) ∧
    strideOf 30 8 = 4) ∧
    load_video_frames (fun n : ℕ => n) ⟨30, List.range 13⟩ 8 = Except.ok [0, 4, 8, 12] := by
  refine ⟨load_video_frames_stride_correct (fun n : ℕ => n) ⟨30, List.range 13⟩ 8
    (by norm_num), ?_⟩
  rw [load_video_frames_ok _ _ _ (by norm_num)]
  simp only [strideOf_30_8]
  rfl

/-- C6 counterexample: a video whose reported native frame rate is 0 does
not make load_video_frames fail; it proceeds and returns the frames. -/
theorem load_video_frames_zero_rate_no_error :
    load_video_frames (fun n : ℕ => n) ⟨0, [7]⟩ 8 = Except.ok [7] ∧
    load_video_frames (fun n : ℕ => n) ⟨0, [7]⟩ 8 ≠
      Except.error Err.sourceReadError := by
  have h : load_video_frames (fun n : ℕ => n) ⟨0, [7]⟩ 8 = Except.ok [7] := by
    rw [load_video_frames_ok _ _ _ (by norm_num)]
    simp only [strideOf_zero]
    rfl
  exact ⟨h, by rw [h]; exact fun hc => Except.noConfusion hc⟩

/-- C6 amended: when the native frame rate is reported as 0, the sampler
does not raise; the stride becomes max(1, round(0 / fps)) = 1 and every
decoded frame is retained (no division by zero occurs, since the only
division is by fps). -/
theorem load_video_frames_zero_rate_keeps_all {α β : Type} (cvt : α → β)
    (frames : List α) (fps : ℚ) (h : fps ≠ 0) :
    load_video_frames cvt ⟨0, frames⟩ fps = Except.ok (frames.map cvt) := by
  rw [load_video_frames_ok cvt ⟨0, frames⟩ fps h]
  simp only [strideOf_zero]
  rw [sampleLoop_one]

/-- Witness for C6 amended: a two-frame video with reported rate 0 and
fps 8 yields both frames. -/
theorem load_video_frames_zero_rate_keeps_all_witness :
    load_video_frames (fun n : ℕ => n + 1) ⟨0, [5, 6]⟩ 8 = Except.ok [6, 7] :=
  load_video_frames_zero_rate_keeps_all (fun n : ℕ => n + 1) [5, 6] 8 (by norm_num)

/-- C10: for every video with at least one decodable frame and positive
fps, the sampler's output is non-empty and begins with the (converted)
first decoded frame, because 0 is a multiple of every stride. -/
theorem load_video_frames_keeps_first {α β : Type} (cvt : α → β) (R fps : ℚ)
    (d : α) (rest : List α) (h : 0 < fps) :
    ∃ tail, load_video_frames cvt ⟨R, d :: rest⟩ fps = Except.ok (cvt d :: tail) := by
  refine ⟨sampleLoop cvt (strideOf R fps) 1 rest, ?_⟩
  rw [load_video_frames_ok cvt ⟨R, d :: rest⟩ fps (ne_of_gt h)]
  simp [sampleLoop]

/-- Witness for C10: a one-frame video of native rate 30 at fps 8 yields a
list starting with that frame. -/
theorem load_video_frames_keeps_first_witness :
    ∃ tail, load_video_frames (fun n : ℕ => n) ⟨30, [9]⟩ 8 = Except.ok (9 :: tail) :=
  load_video_frames_keeps_first (fun n : ℕ => n) 30 8 9 [] (by norm_num)

/-- Stacking a non-empty list of vectors of one common length succeeds and
is the identity. -/
lemma torchStack1_ok {xs : List Emb} {D : ℕ} (hne : xs ≠ [])
    (h : ∀ f ∈ xs, f.length = D) : torchStack1 xs = Except.ok xs := by
  cases xs with
  | nil => exact absurd rfl hne
  | cons e rest =>
    have he : e.length = D := h e (List.mem_cons_self _ _)
    have hall : (rest.all fun f => decide (f.length = e.length)) = true := by
      simp only [List.all_eq_true, decide_eq_true_eq]
      intro f hf
      rw [h f (List.mem_cons_of_mem e hf), he]
    simp [torchStack1, hall]

/-- Stacking a non-empty list of vectors either succeeds as the identity
or fails with a shape mismatch. -/
lemma torchStack1_cases (xs : List Emb) (hne : xs ≠ []) :
    torchStack1 xs = Except.ok xs ∨
    torchStack1 xs = Except.error Err.shapeMismatchError := by
  cases xs with
  | nil => exact absurd rfl hne
  | cons e rest =>
    by_cases hall : (rest.all fun f => decide (f.length = e.length)) = true
    · exact Or.inl (by simp [torchStack1, hall])
    · exact Or.inr (by simp [torchStack1, hall])

/-- Stacking each member of a list of stackable contexts succeeds and is
the identity on the list. -/
lemma stackEach_ok {X : List (List Emb)} (h : ∀ x ∈ X, torchStack1 x = Except.ok x) :
    stackEach X = Except.ok X := by
  induction X with
  | nil => rfl
  | cons x rest ih =>
    unfold stackEach
    rw [h x (List.mem_cons_self _ _), ih (fun x hx => h x (List.mem_cons_of_mem _ hx))]
    rfl

/-- Stacking each member of a list of non-empty contexts either succeeds
as the identity or fails with a shape mismatch. -/
lemma stackEach_cases (X : List (List Emb)) (h : ∀ x ∈ X, x ≠ []) :
    stackEach X = Except.ok X ∨
    stackEach X = Except.error Err.shapeMismatchError := by
  induction X with
  | nil => exact Or.inl rfl
  | cons x rest ih =>
    rcases torchStack1_cases x (h x (List.mem_cons_self _ _)) with h1 | h1
    · rcases ih (fun x hx => h x (List.mem_cons_of_mem _ hx)) with h2 | h2
      · refine Or.inl ?_
        unfold stackEach
        rw [h1, h2]
        rfl
      · refine Or.inr ?_
        unfold stackEach
        rw [h1, h2]
        rfl
    · refine Or.inr ?_
      unfold stackEach
      rw [h1]
      rfl

/-- Stacking a non-empty list of matrices of one common shape succeeds and
is the identity. -/
lemma torchStack2_ok {ts : List (List Emb)} {p : ℕ × ℕ} (hne : ts ≠ [])
    (h : ∀ t ∈ ts, shape2 t = p) : torchStack2 ts = Except.ok ts := by
  cases ts with
  | nil => exact absurd rfl hne
  | cons t rest =>
    have hall : (rest.all fun u => decide (shape2 u = shape2 t)) = true := by
      simp only [List.all_eq_true, decide_eq_true_eq]
      intro u hu
      rw [h u (List.mem_cons_of_mem t hu), h t (List.mem_cons_self _ _)]
    simp [torchStack2, hall]

/-- Stacking a non-empty list of matrices either succeeds as the identity
or fails with a shape mismatch. -/
lemma torchStack2_cases (ts : List (List Emb)) (hne : ts ≠ []) :
    torchStack2 ts = Except.ok ts ∨
    torchStack2 ts = Except.error Err.shapeMismatchError := by
  cases ts with
  | nil => exact absurd rfl hne
  | cons t rest =>
    by_cases hall : (rest.all fun u => decide (shape2 u = shape2 t)) = true
    · exact Or.inl (by simp [torchStack2, hall])
    · exact Or.inr (by simp [torchStack2, hall])

/-- A context is always the literal three-slot list. -/
lemma contextAt_length (null_frame : Emb) (es : List Emb) (i : ℕ) :
    (contextAt null_frame es i).length = 3 := rfl

/-- A context is never the empty list. -/
lemma contextAt_ne_nil (null_frame : Emb) (es : List Emb) (i : ℕ) :
    contextAt null_frame es i ≠ [] := by
  unfold contextAt
  simp

/-- Reading a valid index with getD lands on a member of the list. -/
lemma getD_length_of_uniform {es : List Emb} {D : ℕ}
    (hD : ∀ e ∈ es, e.length = D) {j : ℕ} (hj : j < es.length) :
    (es.getD j []).length = D := by
  rw [List.getD_eq_get?, List.get?_eq_get hj]
  simp only [Option.getD_some]
  exact hD _ (es.get_mem j hj)

/-- All three slots of a context over a uniform-length embedding list have
that common length. -/
lemma contextAt_slot_length {null_frame : Emb} {es : List Emb} {D : ℕ}
    (hnull : null_frame.length = D) (hD : ∀ e ∈ es, e.length = D)
    {i : ℕ} (hi : i < es.length) :
    ∀ e ∈ contextAt null_frame es i, e.length = D := by
  intro e he
  unfold contextAt at he
  simp only [List.mem_cons, List.not_mem_nil, or_false] at he
  rcases he with rfl | rfl | rfl <;>
    · split
      · exact hnull
      · exact getD_length_of_uniform hD (by omega)
/-- On a non-empty uniform-length embedding list, every stacking step of
prepare_data succeeds and the result is the per-index context list paired
with the input as targets. -/
lemma prepare_data_eq_ok {e0 : Emb} {rest : List Emb} {D : ℕ}
    (hD : ∀ e ∈ e0 :: rest, e.length = D) :
    prepare_data (e0 :: rest) =
      Except.ok ((List.range (e0 :: rest).length).map
        (contextAt (torchZeros e0.length) (e0 :: rest)), e0 :: rest) := by
  have hnull : (torchZeros e0.length).length = D := by
    simp [torchZeros, hD e0 (List.mem_cons_self _ _)]
  have hX1 : ∀ x ∈ (List.range (e0 :: rest).length).map
      (contextAt (torchZeros e0.length) (e0 :: rest)), torchStack1 x = Except.ok x := by
    intro x hx
    rcases List.mem_map.mp hx with ⟨i, hi, rfl⟩
    exact torchStack1_ok (contextAt_ne_nil _ _ _)
      (contextAt_slot_length hnull hD (List.mem_range.mp hi))
  have hXne : (List.range (e0 :: rest).length).map
      (contextAt (torchZeros e0.length) (e0 :: rest)) ≠ [] := by
    intro hnil
    have hlen := congrArg List.length hnil
    simp at hlen
  have h1 := stackEach_ok hX1
  have h2 : torchStack2 ((List.range (e0 :: rest).length).map
      (contextAt (torchZeros e0.length) (e0 :: rest))) =
      Except.ok ((List.range (e0 :: rest).length).map
        (contextAt (torchZeros e0.length) (e0 :: rest))) := by
    refine torchStack2_ok (p := (3, D)) hXne ?_
    intro t ht
    rcases List.mem_map.mp ht with ⟨i, hi, rfl⟩
    have hmem0 : (contextAt (torchZeros e0.length) (e0 :: rest) i).headD [] ∈
        contextAt (torchZeros e0.length) (e0 :: rest) i := by
      unfold contextAt
      exact List.mem_cons_self _ _
    have hslot := contextAt_slot_length hnull hD (List.mem_range.mp hi) _ hmem0
    simp only [shape2, contextAt_length, hslot]
  have h3 : torchStack1 (e0 :: rest) = Except.ok (e0 :: rest) :=
    torchStack1_ok (by simp) hD
  simp only [prepare_data, h1, h2, h3]

/-- If the embedding lengths are not all equal to the first one, some
torch.stack call inside prepare_data fails with a shape mismatch. -/
lemma prepare_data_mismatch {e0 : Emb} {rest : List Emb}
    (h : ¬ ∀ e ∈ e0 :: rest, e.length = e0.length) :
    prepare_data (e0 :: rest) = Except.error Err.shapeMismatchError := by
  push_neg at h
  rcases h with ⟨e, he, hlen⟩
  have hmem : e ∈ rest := by
    rcases List.mem_cons.mp he with rfl | h'
    · exact absurd rfl hlen
    · exact h'
  have h3 : torchStack1 (e0 :: rest) = Except.error Err.shapeMismatchError := by
    have hall : (rest.all fun f => decide (f.length = e0.length)) ≠ true := by
      intro hall
      rw [List.all_eq_true] at hall
      exact hlen (by simpa using hall e hmem)
    simp [torchStack1, hall]
  have hne : ∀ x ∈ (List.range (e0 :: rest).length).map
      (contextAt (torchZeros e0.length) (e0 :: rest)), x ≠ [] := by
    intro x hx
    rcases List.mem_map.mp hx with ⟨i, _, rfl⟩
    exact contextAt_ne_nil _ _ _
  have hXne : (List.range (e0 :: rest).length).map
      (contextAt (torchZeros e0.length) (e0 :: rest)) ≠ [] := by
    intro hnil
    have hlen := congrArg List.length hnil
    simp at hlen
  rcases stackEach_cases _ hne with h1 | h1
  · rcases torchStack2_cases _ hXne with h2 | h2
    · simp only [prepare_data, h1, h2, h3]
    · simp only [prepare_data, h1, h2]
  · simp only [prepare_data, h1]

/-- C3 (code-bug evidence): on an empty embedding list, prepare_data does
not return zero Examples; evaluating embedded_frames[0] to size the null
frame raises an IndexError. -/
theorem prepare_data_empty_raises :
    prepare_data ([] : List Emb) = Except.error Err.indexError := rfl

/-- C2 (code-bug evidence plus the invariant that holds away from the
bug): on the empty input prepare_data raises an IndexError instead of
producing zero Examples; on every non-empty input of uniform embedding
length (the Embedder contract) it succeeds, producing exactly one context
per input index, one target per input index, and every context of length
exactly 3 (the hard-coded window size). -/
theorem prepare_data_preserves_count :
    prepare_data ([] : List Emb) = Except.error Err.indexError ∧
    (∀ (es : List Emb) (D : ℕ), es ≠ [] → (∀ e ∈ es, e.length = D) →
      ∃ X y, prepare_data es = Except.ok (X, y) ∧ X.length = es.length ∧
        y.length = es.length ∧ ∀ x ∈ X, x.length = 3) := by
  refine ⟨rfl, ?_⟩
  intro es D hne hD
  cases es with
  | nil => exact absurd rfl hne
  | cons e0 rest =>
    refine ⟨_, _, prepare_data_eq_ok (D := D) hD, ?_, rfl, ?_⟩
    · simp
    · intro x hx
      rcases List.mem_map.mp hx with ⟨i, _, rfl⟩
      exact contextAt_length _ _ _

/-- Witness for C2: a two-embedding input yields two contexts and two
targets, each context of length 3. -/
theorem prepare_data_preserves_count_witness :
    ∃ X y, prepare_data [[(1 : ℚ)], [2]] = Except.ok (X, y) ∧
      X.length = ([[(1 : ℚ)], [2]] : List Emb).length ∧
      y.length = ([[(1 : ℚ)], [2]] : List Emb).length ∧
      ∀ x ∈ X, x.length = 3 :=
  prepare_data_preserves_count.2 [[1], [2]] 1 (by simp) (by decide)

/-- C4: for a non-empty uniform-length input, the Example at index i has
context slot k equal to embeddings[i-(3-k)] when that source index is
non-negative and to the all-zero null embedding otherwise, and the targets
are exactly the input embeddings; in particular the five-embedding,
window-3 scenario produces the expected Examples. -/
theorem prepare_data_window_content :
    (∀ (es : List Emb) (D : ℕ), es ≠ [] → (∀ e ∈ es, e.length = D) →
      ∃ X, prepare_data es = Except.ok (X, es) ∧
        ∀ i, i < es.length → ∀ k, k < 3 →
          (X.getD i []).getD k [] =
            if (i : ℤ) - (3 - (k : ℤ)) < 0 then torchZeros D
            else es.getD (i - (3 - k)) []) ∧
    prepare_data [[1],[2],[3],[4],[5]] =
      Except.ok ([[[0],[0],[0]], [[0],[0],[1]], [[0],[1],[2]],
                  [[1],[2],[3]], [[2],[3],[4]]], [[1],[2],[3],[4],[5]]) := by
  constructor
  · intro es D hne hD
    cases es with
    | nil => exact absurd rfl hne
    | cons e0 rest =>
      refine ⟨_, prepare_data_eq_ok (D := D) hD, ?_⟩
      intro i hi k hk
      have hXi : ((List.range (e0 :: rest).length).map
          (contextAt (torchZeros e0.length) (e0 :: rest))).getD i []
          = contextAt (torchZeros e0.length) (e0 :: rest) i := by
        rw [List.getD_eq_get?, List.get?_map, List.get?_range hi]
        rfl
      have hnullD : torchZeros e0.length = torchZeros D := by
        rw [hD e0 (List.mem_cons_self _ _)]
      rw [hXi, hnullD]
      interval_cases k
      · show (if (i : ℤ) - 3 < 0 then torchZeros D else (e0 :: rest).getD (i - 3) []) = _
        norm_num
      · show (if (i : ℤ) - 2 < 0 then torchZeros D else (e0 :: rest).getD (i - 2) []) = _
        norm_num
      · show (if (i : ℤ) - 1 < 0 then torchZeros D else (e0 :: rest).getD (i - 1) []) = _
        norm_num
  · rfl

/-- Witness for C4: the five-embedding scenario instantiates the general
window-content statement. -/
theorem prepare_data_window_content_witness :
    ∃ X, prepare_data [[(1 : ℚ)],[2],[3],[4],[5]] =
        Except.ok (X, [[(1 : ℚ)],[2],[3],[4],[5]]) ∧
      ∀ i, i < ([[(1 : ℚ)],[2],[3],[4],[5]] : List Emb).length → ∀ k, k < 3 →
        (X.getD i []).getD k [] =
          if (i : ℤ) - (3 - (k : ℤ)) < 0 then torchZeros 1
          else ([[(1 : ℚ)],[2],[3],[4],[5]] : List Emb).getD (i - (3 - k)) [] :=
  prepare_data_window_content.1 [[1],[2],[3],[4],[5]] 1 (by simp) (by decide)

/-- C9: if the embedding lengths within one run are not all identical,
prepare_data raises an observable shape-mismatch error when stacking; if
they are all identical, no shape-mismatch error occurs. -/
theorem prepare_data_shape_defensive (es : List Emb) :
    (¬ (∀ e ∈ es, e.length = (es.headD []).length) →
      prepare_data es = Except.error Err.shapeMismatchError) ∧
    ((∀ e ∈ es, e.length = (es.headD []).length) →
      prepare_data es ≠ Except.error Err.shapeMismatchError) := by
  cases es with
  | nil =>
    constructor
    · intro h
      exact absurd (by simp) h
    · intro _ hcontra
      exact absurd (Except.error.inj hcontra) (by decide)
  | cons e0 rest =>
    constructor
    · intro h
      apply prepare_data_mismatch
      simpa using h
    · intro h
      rw [prepare_data_eq_ok (D := e0.length) (by simpa using h)]
      exact fun hcontra => Except.noConfusion hcontra

/-- Witness for C9: mismatched lengths [1] and [2,3] yield a shape error;
uniform lengths [1] and [2] do not. -/
theorem prepare_data_shape_defensive_witness :
    prepare_data [[(1 : ℚ)], [2, 3]] = Except.error Err.shapeMismatchError ∧
    prepare_data [[(1 : ℚ)], [2]] ≠ Except.error Err.shapeMismatchError :=
  ⟨(prepare_data_shape_defensive [[1], [2, 3]]).1 (by decide),
   (prepare_data_shape_defensive [[1], [2]]).2 (by decide)⟩
/-- C1 (code-bug evidence): dataset.extend(prepare_data(...)) appends the
two components of the returned (X, y) tensor pair, so a corpus of two
videos with 3 and 2 sampled frames yields a dataset of 4 entries (two per
video: the stacked context tensor and the stacked target tensor) rather
than N_A + N_B = 5 Examples, and get(N_A) = get(3) returns video B's
whole stacked target tensor rather than video B's first Example. -/
theorem dataset_extends_tensor_pairs :
    ∃ ds : List Item,
      VideoFrameDataset.load_and_process_videos (fun x : ℚ => x) (fun x => [x]) 8
        [⟨8, [1,2,3]⟩, ⟨8, [10,11]⟩] = Except.ok ds ∧
      VideoFrameDataset.len ds = 4 ∧
      VideoFrameDataset.getitem ds 3 = Except.ok (Sum.inr [[10],[11]]) := by
  refine ⟨[Sum.inl [[[0],[0],[0]], [[0],[0],[1]], [[0],[1],[2]]],
           Sum.inr [[1],[2],[3]],
           Sum.inl [[[0],[0],[0]], [[0],[0],[10]]],
           Sum.inr [[10],[11]]], ?_, rfl, rfl⟩
  simp only [VideoFrameDataset.load_and_process_videos, load_video_frames, strideOf_8_8]
  rfl

/-- C7 counterexample: index -1 lies outside [0, size()) yet getitem on a
one-entry dataset succeeds, returning the last entry, because a Python
list accepts negative indices down to -len. -/
theorem getitem_negative_index_succeeds :
    VideoFrameDataset.getitem [Sum.inr [[1]]] (-1) = Except.ok (Sum.inr [[1]]) := rfl

/-- C7 amended: getitem succeeds exactly for -size() ≤ index < size()
(negative indices alias from the end, per Python list semantics) and
fails with an IndexError otherwise; in particular every index in
[0, size()) succeeds and every index ≥ size() or < -size() fails. -/
theorem getitem_ok_iff (ds : List Item) (idx : ℤ) :
    (∃ a, VideoFrameDataset.getitem ds idx = Except.ok a) ↔
      (-(ds.length : ℤ) ≤ idx ∧ idx < (ds.length : ℤ)) := by
  simp only [VideoFrameDataset.getitem]
  split_ifs with h1 h2 <;> simp <;> omega

/-- C8: load_video_paths on an existing empty directory returns the empty
list without error; on a nonexistent directory it fails with a source
read error; and the paths it returns are exactly the joins of the listed
entries whose name ends in ".mp4". -/
theorem load_video_paths_spec :
    (∀ p : String, load_video_paths p (some []) = Except.ok []) ∧
    (∀ p : String, load_video_paths p none = Except.error Err.sourceReadError) ∧
    (∀ (p : String) (entries : List String), ∃ res,
      load_video_paths p (some entries) = Except.ok res ∧
      ∀ q, q ∈ res ↔ ∃ f ∈ entries, f.endsWith ".mp4" = true ∧ q = p ++ "/" ++ f) := by
  refine ⟨fun p => rfl, fun p => rfl, fun p entries => ⟨_, rfl, fun q => ?_⟩⟩
  simp only [List.mem_map, List.mem_filter]
  constructor
  · rintro ⟨f, ⟨hf, he⟩, rfl⟩
    exact ⟨f, hf, he, rfl⟩
  · rintro ⟨f, hf, he, rfl⟩
    exact ⟨f, ⟨hf, he⟩, rfl⟩
